import Mathlib

/-!
Verification development for the readiness-inference backend
(`backend/app/services/compute_service.py`, `graph_service.py`,
`cluster_service.py`, `report_service.py`, and the compute router
`backend/app/routers/compute.py`).

Embedding conventions:
* Python `float` values are modelled as `ℚ` (the computations at issue are
  exact arithmetic: sums, products, divisions, comparisons).
* Python dicts are modelled as association lists in insertion order;
  `alookup` mirrors `d.get(k)`, `ainsert` mirrors `d[k] = v`.
* `numpy` NaN entries of the direct-readiness matrix (meaning "absent")
  are modelled as `Option ℚ` with `none` for NaN.
* Matrices indexed by student/concept ids are modelled as functions
  `String → String → _`; the Python code computes every entry
  independently, so the entrywise form is the same computation.
-/

namespace App

/-- Association-list lookup, mirroring Python `d.get(k)`.
Keys are unique in every dict the code builds, and `ainsert` keeps them
unique, so the first match is the binding. -/
def alookup {α : Type} (l : List (String × α)) (k : String) : Option α :=
  (l.find? (fun p => p.1 == k)).map (fun p => p.2)

/-- `d.get(k, dflt)`. -/
def alookupD {α : Type} (l : List (String × α)) (k : String) (dflt : α) : α :=
  (alookup l k).getD dflt

/-- `d[k] = v`: overwrite the binding in place if the key exists, else append. -/
def ainsert {α : Type} (l : List (String × α)) (k : String) (v : α) : List (String × α) :=
  if (l.find? (fun p => p.1 == k)).isSome then
    l.map (fun p => if p.1 == k then (k, v) else p)
  else
    l ++ [(k, v)]

/-- First-occurrence deduplication of a list of keys (used to model
iterating over a Python set built from dict keys; only the resulting
node *set* matters to any claim, the iteration order of a Python set
is not specified). -/
def dedupKeys : List String → List String
  | [] => []
  | k :: rest => k :: (dedupKeys (rest.filter (fun x => !(x == k))))
termination_by l => l.length
decreasing_by
  simp only [List.length_cons]
  exact Nat.lt_succ_of_le (List.length_filter_le _ _)

/-- Insertion sort on strings, modelling Python `sorted(...)` on str keys. -/
def insertString (s : String) : List String → List String
  | [] => [s]
  | x :: xs => if s ≤ x then s :: x :: xs else x :: insertString s xs

/-- `sorted(keys)`. -/
def sortStrings (l : List String) : List String :=
  l.foldr insertString []

/-- Mean of a list of rationals (`np.mean`); division by zero yields 0 in `ℚ`,
which only arises where the code guards emptiness itself. -/
def listMean (xs : List ℚ) : ℚ :=
  xs.sum / (xs.length : ℚ)

/-- Population variance (`np.var`, ddof = 0). -/
def listVar (xs : List ℚ) : ℚ :=
  let m := listMean xs
  ((xs.map (fun x => (x - m) ^ 2)).sum) / (xs.length : ℚ)

/-- Median of a list (`np.median`): sort, take the middle element, or the
mean of the two middle elements for even length. -/
def insertRat (q : ℚ) : List ℚ → List ℚ
  | [] => [q]
  | x :: xs => if q ≤ x then q :: x :: xs else x :: insertRat q xs

def sortRats (l : List ℚ) : List ℚ :=
  l.foldr insertRat []

def listMedian (xs : List ℚ) : ℚ :=
  let s := sortRats xs
  let n := s.length
  if n % 2 == 1 then s.getD (n / 2) 0
  else ((s.getD (n / 2 - 1) 0) + (s.getD (n / 2) 0)) / 2

/-!
## Stage 1: direct readiness
`compute_service.compute_direct_readiness` (lines 22-74).

The Python code fills a (students × concepts) matrix entry by entry; each
entry depends only on its own (student, concept) pair, so we embed the
per-entry computation.  `none` models the NaN that marks "absent".
-/

/-- The inner accumulation loop over the tagged questions of one concept for
one student: `weighted_sum`, `weight_sum` (lines 61-69).  Questions the
student did not attempt are skipped; attempted ones contribute
`w_q * normalized` and `w_q`, where `normalized = score / max` when the max
score (`max_scores.get(q_id, 1.0)`) is positive and `0.0` otherwise. -/
def directStep (studentScores : List (String × ℚ)) (maxScores : List (String × ℚ))
    (acc : ℚ × ℚ) (qw : String × ℚ) : ℚ × ℚ :=
  match alookup studentScores qw.1 with
  | some sc =>
      let ms := alookupD maxScores qw.1 1
      let normalized := if 0 < ms then sc / ms else 0
      (acc.1 + qw.2 * normalized, acc.2 + qw.2)
  | none => acc

def directFold (studentScores : List (String × ℚ)) (maxScores : List (String × ℚ))
    (tagged : List (String × ℚ)) : ℚ × ℚ :=
  tagged.foldl (directStep studentScores maxScores) (0, 0)

/-- `compute_direct_readiness`, per (student, concept) entry.
A concept with no tagged questions is skipped (stays NaN = `none`,
line 54-55); otherwise the entry is set only when `weight_sum > 0`
(line 71-72). -/
def compute_direct_readiness (scores : List (String × List (String × ℚ)))
    (maxScores : List (String × ℚ))
    (questionConceptMap : List (String × List (String × ℚ)))
    (student concept : String) : Option ℚ :=
  let tagged := alookupD questionConceptMap concept []
  if tagged.isEmpty then none
  else
    let studentScores := alookupD scores student []
    let acc := directFold studentScores maxScores tagged
    if 0 < acc.2 then some (acc.1 / acc.2) else none

/-!
Spec-side definitions for claim C1, written from the words of the spec:
`direct(s,c) = Σ(weight_q * normalized_score(s,q)) / Σ(weight_q)` over the
questions tagged to `c` that `s` attempted, with
`normalized_score(s,q) = score(s,q) / max_score(q)` and `0` if the max
score is `0`.
-/

/-- The questions tagged to a concept that the student attempted. -/
def attemptedTagged (tagged : List (String × ℚ)) (studentScores : List (String × ℚ)) :
    List (String × ℚ) :=
  tagged.filter (fun qw => (alookup studentScores qw.1).isSome)

/-- Spec-side `normalized_score(s,q)`: `score/max`, `0` if the max score is 0. -/
def normalizedScoreSpec (studentScores : List (String × ℚ)) (maxScores : List (String × ℚ))
    (q : String) : ℚ :=
  let ms := alookupD maxScores q 1
  if ms = 0 then 0 else (alookupD studentScores q 0) / ms

/-- Spec-side weighted numerator `Σ weight_q * normalized_score(s,q)`. -/
def directSpecNum (studentScores maxScores : List (String × ℚ))
    (att : List (String × ℚ)) : ℚ :=
  (att.map (fun qw => qw.2 * normalizedScoreSpec studentScores maxScores qw.1)).sum

/-- Spec-side denominator `Σ weight_q`. -/
def directSpecDen (att : List (String × ℚ)) : ℚ :=
  (att.map (fun qw => qw.2)).sum

/-!
## Stages 2-4 and confidence
`compute_service.py` lines 81-275.  NaN direct readiness is treated as 0
wherever it enters arithmetic (`np.where(np.isnan(...), 0.0, ...)`).
-/

/-- `np.where(np.isnan(direct), 0.0, direct)`: substitute 0 for absent. -/
def effectiveDirect (d : Option ℚ) : ℚ := d.getD 0

/-- `compute_prerequisite_penalty`, per (student, concept) entry (lines
81-125): sum over every concept `p` with a positive-weight edge `p → c` of
`edge_weight * max(0, threshold - effective_direct(s, p))`.  The Python code
iterates concepts in topological order, but each matrix column is written
independently of the others, so the entry value does not depend on the
iteration order. -/
def compute_prerequisite_penalty (adjacency : String → String → ℚ)
    (concepts : List String) (direct : String → Option ℚ)
    (threshold : ℚ) (concept : String) : ℚ :=
  concepts.foldl (fun acc p =>
    let w := adjacency p concept
    if 0 < w then acc + w * max 0 (threshold - effectiveDirect (direct p)) else acc) 0

/-- `compute_downstream_boost`, per (student, concept) entry (lines 132-173):
accumulate `(edge_weight * 0.4) * effective_direct(s, d)` over every concept
`d` with a positive-weight edge `p → d`, then cap with
`np.minimum(boost, 0.2)`. -/
def compute_downstream_boost (adjacency : String → String → ℚ)
    (direct : String → Option ℚ) (concepts : List String) (p : String) : ℚ :=
  let s := concepts.foldl (fun acc d =>
    let w := adjacency p d
    if 0 < w then acc + (w * 0.4) * effectiveDirect (direct d) else acc) 0
  min s 0.2

/-- `compute_final_readiness` (lines 180-194):
`np.clip(alpha * direct - beta * penalty + gamma * boost, 0.0, 1.0)` with
NaN direct replaced by 0. -/
def compute_final_readiness (alpha beta gamma : ℚ) (direct : Option ℚ)
    (penalty boost : ℚ) : ℚ :=
  min (max (alpha * effectiveDirect direct - beta * penalty + gamma * boost) 0) 1

/-- Spec-side clamp to `[0,1]` for claim C2. -/
def clamp01 (x : ℚ) : ℚ := min 1 (max 0 x)

/-- Mean direct readiness of one concept across the students that have a
present (non-NaN) value (`compute_confidence` lines 253-257). -/
def conceptMeanDirect (students : List String) (direct : String → String → Option ℚ)
    (c : String) : Option ℚ :=
  let vals := students.filterMap (fun s => direct s c)
  if vals.isEmpty then none else some (listMean vals)

/-- `compute_confidence` (lines 201-275): minimum ordinal of three factors,
computed per concept.  The `levels` dict maps high/medium/low to 3/2/1; the
result is the reverse image of the minimum. -/
def levels (s : String) : Nat :=
  if s == "high" then 3 else if s == "medium" then 2 else 1

def levelOfNat (n : Nat) : String :=
  if n == 3 then "high" else if n == 2 then "medium" else "low"

def compute_confidence (concept : String)
    (questionConceptMap : List (String × List (String × ℚ)))
    (maxScores : List (String × ℚ))
    (students : List String) (direct : String → String → Option ℚ)
    (concepts : List String) (adjacency : String → String → ℚ) : String :=
  let tagged := alookupD questionConceptMap concept []
  let numTagged := tagged.length
  let f1 := if numTagged ≥ 3 then "high" else if numTagged == 2 then "medium" else "low"
  let totalPoints := (tagged.map (fun qw => alookupD maxScores qw.1 1)).sum
  let f2 := if totalPoints ≥ 10 then "high" else if totalPoints ≥ 5 then "medium" else "low"
  let neighbors := concepts.filter (fun c2 =>
    0 < adjacency concept c2 || 0 < adjacency c2 concept)
  let variance :=
    if neighbors.isEmpty then 0
    else
      let related := concept :: neighbors
      let means := related.filterMap (conceptMeanDirect students direct)
      if 1 < means.length then listVar means else 0
  let f3 := if variance < 0.15 then "high" else if variance ≤ 0.30 then "medium" else "low"
  levelOfNat (min (levels f1) (min (levels f2) (levels f3)))

/-!
Spec-side definitions for claim C4, written from the words of the claim:
three independent factor functions and the ordinal minimum over the order
low < medium < high.
-/

/-- Ordinal minimum of two confidence levels (low < medium < high). -/
def ordMinLevel (a b : String) : String :=
  if levels a ≤ levels b then a else b

/-- Claim-side F1: tagged-question count ≥3 → high, =2 → medium, ≤1 → low. -/
def claimF1 (numTagged : Nat) : String :=
  if 3 ≤ numTagged then "high" else if numTagged = 2 then "medium" else "low"

/-- Claim-side F2: total max-score points ≥10 → high, in [5,10) → medium,
< 5 → low. -/
def claimF2 (totalPoints : ℚ) : String :=
  if 10 ≤ totalPoints then "high" else if 5 ≤ totalPoints then "medium" else "low"

/-- Claim-side F3 variance: population variance of per-concept mean direct
readiness (averaged over students first) across the concept and its direct
parents and children; 0 when the concept has no graph neighbors.  Concepts
whose direct readiness is absent for every student contribute no mean. -/
def claimF3Variance (concept : String) (students : List String)
    (direct : String → String → Option ℚ) (concepts : List String)
    (adjacency : String → String → ℚ) : ℚ :=
  let neighbors := concepts.filter (fun c2 =>
    0 < adjacency concept c2 || 0 < adjacency c2 concept)
  if neighbors.isEmpty then 0
  else listVar ((concept :: neighbors).filterMap (conceptMeanDirect students direct))

/-- Claim-side F3: variance < 0.15 → high, ≤ 0.30 → medium, > 0.30 → low. -/
def claimF3 (variance : ℚ) : String :=
  if variance < 0.15 then "high" else if variance ≤ 0.30 then "medium" else "low"

/-!
## Graph service
`graph_service.py`: build, serialize, validate, cycle detection,
topological order (Kahn), patch application.  A `networkx.DiGraph` is
modelled as insertion-ordered node and edge lists; node labels are
optional because `add_edge` auto-creates endpoint nodes without a label
attribute; at most one edge per ordered pair (`add_edge` on an existing
pair overwrites its weight).
-/

/-- A node object of the graph JSON: `{"id": ..., "label": ...}` where the
label key may be missing (`node.get("label", node["id"])`). -/
structure JsonNode where
  id : String
  label : Option String
deriving Repr, DecidableEq

/-- An edge object of the graph JSON: `{"source", "target", "weight"}` where
the weight key may be missing (`edge.get("weight", 0.5)`). -/
structure JsonEdge where
  source : String
  target : String
  weight : Option ℚ
deriving Repr, DecidableEq

/-- The graph JSON shape `{"nodes": [...], "edges": [...]}`. -/
structure GraphJson where
  nodes : List JsonNode
  edges : List JsonEdge
deriving Repr, DecidableEq

/-- `networkx.DiGraph` model: insertion-ordered nodes (id, optional label
attribute) and edges (source, target, weight). -/
structure DiGraph where
  nodes : List (String × Option String)
  edges : List (String × String × ℚ)
deriving Repr, DecidableEq

namespace DiGraph

def hasNode (G : DiGraph) (id : String) : Bool :=
  G.nodes.any (fun n => n.1 == id)

def hasEdge (G : DiGraph) (u v : String) : Bool :=
  G.edges.any (fun e => e.1 == u && e.2.1 == v)

/-- `G.add_node(id, label=l)`: update the label attribute in place if the
node exists, else append. -/
def addNode (G : DiGraph) (id : String) (label : String) : DiGraph :=
  if G.hasNode id then
    { G with nodes := G.nodes.map (fun n => if n.1 == id then (id, some label) else n) }
  else
    { G with nodes := G.nodes ++ [(id, some label)] }

/-- Bare node insertion as `add_edge` performs it: the auto-created endpoint
has no label attribute. -/
def ensureNode (G : DiGraph) (id : String) : DiGraph :=
  if G.hasNode id then G else { G with nodes := G.nodes ++ [(id, none)] }

/-- `G.add_edge(u, v, weight=w)`: auto-create missing endpoints, overwrite
the weight if the edge exists, else append. -/
def addEdge (G : DiGraph) (u v : String) (w : ℚ) : DiGraph :=
  let G := (G.ensureNode u).ensureNode v
  if G.hasEdge u v then
    { G with edges := G.edges.map (fun e => if e.1 == u && e.2.1 == v then (u, v, w) else e) }
  else
    { G with edges := G.edges ++ [(u, v, w)] }

/-- `G.remove_node(id)`: drop the node and every incident edge. -/
def removeNode (G : DiGraph) (id : String) : DiGraph :=
  { nodes := G.nodes.filter (fun n => !(n.1 == id)),
    edges := G.edges.filter (fun e => !(e.1 == id) && !(e.2.1 == id)) }

/-- `G.remove_edge(u, v)`. -/
def removeEdge (G : DiGraph) (u v : String) : DiGraph :=
  { G with edges := G.edges.filter (fun e => !(e.1 == u && e.2.1 == v)) }

/-- Successors of a node. -/
def succs (G : DiGraph) (u : String) : List String :=
  (G.edges.filter (fun e => e.1 == u)).map (fun e => e.2.1)

end DiGraph

/-- `build_graph` (graph_service.py lines 10-24): add every node with
`label = node.get("label", node["id"])`, then every edge with
`weight = edge.get("weight", 0.5)`.  Note that it performs **no**
validation: `add_edge` silently creates endpoints that are not in the node
list, and any weight is accepted. -/
def build_graph (g : GraphJson) : DiGraph :=
  let G : DiGraph := { nodes := [], edges := [] }
  let G := g.nodes.foldl (fun G n => G.addNode n.id (n.label.getD n.id)) G
  g.edges.foldl (fun G e => G.addEdge e.source e.target (e.weight.getD 0.5)) G

/-- `graph_to_json` (lines 27-34): every emitted node carries a label
(`G.nodes[n].get("label", n)`) and every edge a weight. -/
def graph_to_json (G : DiGraph) : GraphJson :=
  { nodes := G.nodes.map (fun n => { id := n.1, label := some (n.2.getD n.1) }),
    edges := G.edges.map (fun e => { source := e.1, target := e.2.1, weight := some e.2.2 }) }

/-- Kahn-style acyclicity test and topological order, modelling
`nx.is_directed_acyclic_graph` / `nx.topological_sort`: repeatedly remove
the nodes with no incoming edge; the graph is acyclic exactly when all
nodes get removed.  `kahnPeel` returns the removal order. -/
def kahnStep (nodes : List String) (edges : List (String × String × ℚ)) :
    List String :=
  nodes.filter (fun n => !(edges.any (fun e => e.2.1 == n && nodes.contains e.1)))

def kahnPeel : Nat → List String → List (String × String × ℚ) → List String
  | 0, _, _ => []
  | fuel + 1, nodes, edges =>
      let ready := kahnStep nodes edges
      if ready.isEmpty then []
      else ready ++ kahnPeel fuel (nodes.filter (fun n => !(ready.contains n))) edges

/-- `nx.is_directed_acyclic_graph`. -/
def isDirectedAcyclicGraph (G : DiGraph) : Bool :=
  let ids := G.nodes.map (fun n => n.1)
  (kahnPeel ids.length ids G.edges).length == ids.length

/-- `get_topological_order` (lines 94-96).  `nx.topological_sort` raises on a
cyclic graph; every pipeline caller reaches it only with validated DAGs, and
the per-entry stage computations do not depend on the order, so the embedding
returns the Kahn peel order (all nodes exactly when the graph is acyclic). -/
def get_topological_order (G : DiGraph) : List String :=
  let ids := G.nodes.map (fun n => n.1)
  kahnPeel ids.length ids G.edges

/-- Depth-first search for a path `u → ... → target` avoiding `visited`,
used by the `_find_cycle` model. -/
def findPath (G : DiGraph) : Nat → String → String → List String → Option (List String)
  | 0, _, _, _ => none
  | fuel + 1, u, target, visited =>
      if u == target then some [u]
      else
        (G.succs u).findSome? (fun w =>
          if w == target then some [u, target]
          else if visited.contains w then none
          else (findPath G fuel w target (w :: visited)).map (fun p => u :: p))

/-- `_find_cycle` (lines 85-91), modelling `nx.find_cycle`: return one cycle
as a node path that starts and ends at the same node (e.g. `[A, B, A]`),
or `[]` when the graph is acyclic. -/
def find_cycle (G : DiGraph) : List String :=
  ((G.nodes.map (fun n => n.1)).findSome? (fun n =>
    (G.succs n).findSome? (fun w =>
      if w == n then some [n, n]
      else (findPath G G.nodes.length w n [w]).map (fun p => n :: p)))).getD []

/-- A validation error record (`schemas.ValidationError` carries
row/field/message; the embedding keeps the discriminating content). -/
inductive VErr where
  | sourceMissing (row : Nat) (id : String)
  | targetMissing (row : Nat) (id : String)
  | weightRange (row : Nat) (w : ℚ)
  | cycleFound (path : List String)
deriving Repr, DecidableEq

/-- The structural error pass of `validate_graph` (lines 48-68): for every
edge, in order, collect a referential-integrity error per missing endpoint
and a range error for a weight outside `[0, 1]`. -/
def validate_errors (g : GraphJson) : List VErr :=
  let nodeIds := g.nodes.map (fun n => n.id)
  (g.edges.enum.map (fun ei =>
    (if nodeIds.contains ei.2.source then []
     else [VErr.sourceMissing ei.1 ei.2.source]) ++
    (if nodeIds.contains ei.2.target then []
     else [VErr.targetMissing ei.1 ei.2.target]) ++
    (if ei.2.weight.getD 0.5 < 0 || 1 < ei.2.weight.getD 0.5 then
      [VErr.weightRange ei.1 (ei.2.weight.getD 0.5)]
     else []))).flatten

/-- `validate_graph` (lines 37-82): collect referential-integrity and
weight-range errors over all edges; if any, return `(False, errors, None)`
without cycle detection; otherwise build the graph and report a cycle if it
is not a DAG. -/
def validate_graph (g : GraphJson) :
    Bool × List VErr × Option (List String) :=
  let errors := validate_errors g
  if !errors.isEmpty then (false, errors, none)
  else
    let G := build_graph g
    if !(isDirectedAcyclicGraph G) then
      let cyc := find_cycle G
      (false, [VErr.cycleFound cyc], some cyc)
    else (true, [], none)

/-!
### Patch application
`apply_patch` (lines 99-176) with the request schema
(`GraphPatchRequest`: add_nodes, remove_nodes, add_edges, remove_edges).
-/

structure PatchNode where
  id : String
  label : String
deriving Repr, DecidableEq

structure PatchEdge where
  source : String
  target : String
  weight : ℚ
deriving Repr, DecidableEq

structure GraphPatch where
  add_nodes : List PatchNode
  remove_nodes : List String
  add_edges : List PatchEdge
  remove_edges : List PatchEdge
deriving Repr, DecidableEq

/-- Per-operation patch errors (`ValidationError` records with the `field`
of the failing phase and the formatted message content). -/
inductive PatchErr where
  | addNodeExists (id : String)
  | removeNodeMissing (id : String)
  | addEdgeSourceMissing (id : String)
  | addEdgeTargetMissing (id : String)
  | addEdgeWeightRange (w : ℚ)
  | removeEdgeMissing (s t : String)
  | patchCycle (path : List String)
deriving Repr, DecidableEq

/-- The four structural phases of `apply_patch` in their fixed order
(add nodes, remove nodes, add edges, remove edges), each collecting errors
instead of raising; an erroneous operation is skipped (`continue`), the rest
still execute on the working copy. -/
def applyPatchOps (G : DiGraph) (p : GraphPatch) : DiGraph × List PatchErr :=
  let step1 := p.add_nodes.foldl (fun (acc : DiGraph × List PatchErr) n =>
    if acc.1.hasNode n.id then (acc.1, acc.2 ++ [PatchErr.addNodeExists n.id])
    else (acc.1.addNode n.id n.label, acc.2)) (G, [])
  let step2 := p.remove_nodes.foldl (fun (acc : DiGraph × List PatchErr) id =>
    if !(acc.1.hasNode id) then (acc.1, acc.2 ++ [PatchErr.removeNodeMissing id])
    else (acc.1.removeNode id, acc.2)) step1
  let step3 := p.add_edges.foldl (fun (acc : DiGraph × List PatchErr) e =>
    if !(acc.1.hasNode e.source) then (acc.1, acc.2 ++ [PatchErr.addEdgeSourceMissing e.source])
    else if !(acc.1.hasNode e.target) then (acc.1, acc.2 ++ [PatchErr.addEdgeTargetMissing e.target])
    else if e.weight < 0 || 1 < e.weight then (acc.1, acc.2 ++ [PatchErr.addEdgeWeightRange e.weight])
    else (acc.1.addEdge e.source e.target e.weight, acc.2)) step2
  p.remove_edges.foldl (fun (acc : DiGraph × List PatchErr) e =>
    if acc.1.hasEdge e.source e.target then (acc.1.removeEdge e.source e.target, acc.2)
    else (acc.1, acc.2 ++ [PatchErr.removeEdgeMissing e.source e.target])) step3

/-- `apply_patch`: build a working copy, run the four phases; if any error
was collected return the **original** JSON unchanged; otherwise check
acyclicity: on a cycle return the original JSON with the cycle path and a
cycle error; only a structurally clean, acyclic result commits
(`graph_to_json` of the patched working copy). -/
def apply_patch (g : GraphJson) (p : GraphPatch) :
    GraphJson × Bool × Option (List String) × List PatchErr :=
  let res := applyPatchOps (build_graph g) p
  if !res.2.isEmpty then (g, false, none, res.2)
  else
    if isDirectedAcyclicGraph res.1 then (graph_to_json res.1, true, none, [])
    else
      let cyc := find_cycle res.1
      (g, false, some cyc, [PatchErr.patchCycle cyc])

/-!
## Pipeline orchestrator
`compute_service.run_readiness_pipeline` (lines 383-481).  The explanation
trace (`build_explanation_trace`) is emitted alongside each record; no claim
refers to its content, so the embedding keeps the numeric and confidence
fields of the per-(student, concept) record.
-/

structure ReadinessRecord where
  student_id : String
  concept_id : String
  direct_readiness : Option ℚ
  prerequisite_penalty : ℚ
  downstream_boost : ℚ
  final_readiness : ℚ
  confidence : String
deriving Repr, DecidableEq

/-- Per-concept class aggregate.  `np.std` emits the square root of the
population variance; a square root is irrational in general, so the
embedding stores the variance (`std_readiness ^ 2`). -/
structure ClassAggregate where
  concept_id : String
  mean_readiness : ℚ
  median_readiness : ℚ
  var_readiness : ℚ
  below_threshold_count : Nat
deriving Repr, DecidableEq

structure PipelineResult where
  readiness_results : List ReadinessRecord
  class_aggregates : List ClassAggregate
  concepts : List String
  students : List String
  adjacency : String → String → ℚ
  direct_readiness_matrix : String → String → Option ℚ
  final_readiness_matrix : String → String → ℚ

/-- The adjacency matrix built from the graph edges (lines 409-412);
absent entries are 0. -/
def adjacencyOf (G : DiGraph) : String → String → ℚ :=
  fun u v =>
    match G.edges.find? (fun e => e.1 == u && e.2.1 == v) with
    | some e => e.2.2
    | none => 0

/-- `compute_class_aggregates` (lines 356-376): per concept, over all
students, mean / median / spread of final readiness and the count of
values strictly below the threshold. -/
def compute_class_aggregates (finalM : String → String → ℚ)
    (students concepts : List String) (threshold : ℚ) : List ClassAggregate :=
  concepts.map (fun c =>
    let vals := students.map (fun s => finalM s c)
    { concept_id := c,
      mean_readiness := listMean vals,
      median_readiness := listMedian vals,
      var_readiness := listVar vals,
      below_threshold_count := (vals.filter (fun v => v < threshold)).length })

/-- `run_readiness_pipeline`: build the graph, take its node list as the
concepts, the sorted score keys as the students, run the four stages, and
emit one record per (student, concept) plus the class aggregates. -/
def run_readiness_pipeline (scores : List (String × List (String × ℚ)))
    (maxScores : List (String × ℚ))
    (questionConceptMap : List (String × List (String × ℚ)))
    (graphJson : GraphJson) (alpha beta gamma threshold : ℚ) : PipelineResult :=
  let G := build_graph graphJson
  let concepts := G.nodes.map (fun n => n.1)
  let students := sortStrings (scores.map (fun p => p.1))
  let adjacency := adjacencyOf G
  let direct := fun s c => compute_direct_readiness scores maxScores questionConceptMap s c
  let penalty := fun s c => compute_prerequisite_penalty adjacency concepts (direct s) threshold c
  let boost := fun s c => compute_downstream_boost adjacency (direct s) concepts c
  let finalM := fun s c => compute_final_readiness alpha beta gamma (direct s c) (penalty s c) (boost s c)
  let results := students.flatMap (fun s => concepts.map (fun c =>
    ({ student_id := s, concept_id := c,
       direct_readiness := direct s c,
       prerequisite_penalty := penalty s c,
       downstream_boost := boost s c,
       final_readiness := finalM s c,
       confidence := compute_confidence c questionConceptMap maxScores students
         direct concepts adjacency } : ReadinessRecord)))
  { readiness_results := results,
    class_aggregates := compute_class_aggregates finalM students concepts threshold,
    concepts := concepts, students := students,
    adjacency := adjacency,
    direct_readiness_matrix := direct,
    final_readiness_matrix := finalM }

/-!
## Compute endpoint data flow
`routers/compute.py`, `compute_readiness` (lines 73-142): the database rows
are already loaded; the embedding starts from the joined row lists.  The
HTTP-400 failures for missing prerequisite data are the `InputError`
failure mode of the spec.
-/

/-- One row of the `(Score, Question)` join (lines 66-71). -/
structure ScoreRow where
  student_id_external : String
  question_id_external : String
  score : ℚ
  max_score : ℚ
deriving Repr, DecidableEq

/-- One row of the `(QuestionConceptMap, Question)` join (lines 91-96). -/
structure QcmRow where
  concept_id : String
  question_id_external : String
  weight : ℚ
deriving Repr, DecidableEq

/-- The two precondition failures (HTTP 400, spec `InputError`). -/
inductive ComputeError where
  | noScores
  | noMapping
deriving Repr, DecidableEq

/-- `scores_dict` construction (lines 80-87). -/
def buildScoresDict (rows : List ScoreRow) : List (String × List (String × ℚ)) :=
  rows.foldl (fun d r =>
    ainsert d r.student_id_external
      (ainsert (alookupD d r.student_id_external []) r.question_id_external r.score)) []

/-- `max_scores_dict` construction (lines 80-88). -/
def buildMaxScores (rows : List ScoreRow) : List (String × ℚ) :=
  rows.foldl (fun d r => ainsert d r.question_id_external r.max_score) []

/-- `question_concept_map` construction (lines 104-111). -/
def buildQcMap (rows : List QcmRow) : List (String × List (String × ℚ)) :=
  rows.foldl (fun d r =>
    ainsert d r.concept_id
      ((alookupD d r.concept_id []) ++ [(r.question_id_external, r.weight)])) []

/-- The auto-created fallback graph when no graph row exists (lines
122-128): one isolated node per concept key of the question-concept map,
no edges.  (Python iterates a `set`; its order is unspecified and only the
node set matters.) -/
def fallbackGraph (qcMap : List (String × List (String × ℚ))) : GraphJson :=
  { nodes := (dedupKeys (qcMap.map (fun p => p.1))).map
      (fun c => { id := c, label := some c }),
    edges := [] }

/-- `compute_readiness` (lines 73-142), from the loaded rows to the pipeline
result: reject when no score rows exist, then when no mapping rows exist;
fall back to the isolated-node graph only when no graph row exists;
otherwise use the stored graph as it is. -/
def compute_readiness (scoreRows : List ScoreRow) (qcmRows : List QcmRow)
    (graphRow : Option GraphJson) (alpha beta gamma threshold : ℚ) :
    Except ComputeError PipelineResult :=
  if scoreRows.isEmpty then .error .noScores
  else
    let scoresDict := buildScoresDict scoreRows
    let maxScores := buildMaxScores scoreRows
    if qcmRows.isEmpty then .error .noMapping
    else
      let qcMap := buildQcMap qcmRows
      let graphJson :=
        match graphRow with
        | none => fallbackGraph qcMap
        | some gj => gj
      .ok (run_readiness_pipeline scoresDict maxScores qcMap graphJson
            alpha beta gamma threshold)

/-!
## Clustering engine
`cluster_service.py`.  `KMeans(...).fit_predict` and `cluster_centers_`
come from scikit-learn; the embedding abstracts the fitted model as a
function argument `kmeansFit` returning (labels, centers); its library
contract (one label in `[0, n_clusters)` per row) appears as a hypothesis
where a claim needs it.
-/

/-- Stable index sort of a value list, modelling `np.argsort(centroid)`:
indices ordered by ascending value.  NumPy uses `kind="quicksort"`
(introsort) by default, whose order among equal values is not specified;
this model breaks ties by original index. -/
def insertIdxVal (p : Nat × ℚ) : List (Nat × ℚ) → List (Nat × ℚ)
  | [] => [p]
  | x :: xs =>
      if p.2 < x.2 || (p.2 == x.2 && p.1 ≤ x.1) then p :: x :: xs
      else x :: insertIdxVal p xs

def argsort (vals : List ℚ) : List Nat :=
  ((vals.enum.map (fun p => (p.1, p.2))).foldr insertIdxVal []).map (fun p => p.1)

/-- `_top_weak_concepts` (lines 84-87): the concepts at the first `topN`
argsort indices of the centroid. -/
def topWeakConcepts (centroid : List ℚ) (concepts : List String) (topN : Nat) :
    List String :=
  ((argsort centroid).take topN).map (fun i => concepts.getD i "")

/-- `_suggest_interventions` (lines 90-98). -/
def suggestInterventions (weakConcepts : List String) : List String :=
  weakConcepts.map (fun c =>
    "Review session recommended for " ++ c ++
    " — consider targeted practice problems and office hours focus.")

structure ClusterInfo where
  cluster_label : String
  centroid : List (String × ℚ)
  student_count : Nat
  top_weak_concepts : List String
  suggested_interventions : List String
deriving Repr, DecidableEq

structure ClusteringResult where
  clusters : List ClusterInfo
  assignments : List (String × String)
deriving Repr, DecidableEq

/-- The member list of one cluster:
`[s for s, m in zip(students, mask) if m]` (line 60). -/
def clusterStudents (students : List String) (mask : List Bool) : List String :=
  ((students.zip mask).filter (fun p => p.2)).map (fun p => p.1)

/-- `run_clustering` (lines 15-81).  With fewer than 2 effective clusters
(`actual_k = min(k, n_students) < 2`) everyone lands in "Cluster 0" with
the column-means centroid; otherwise the fitted labels partition the
students by `zip(students, labels == i)` per cluster index.  The students
list is a dict-keys list (distinct ids), so the assignments dict is
modelled as the association list of its insertions. -/
def run_clustering (kmeansFit : List (List ℚ) → Nat → List Nat × List (List ℚ))
    (matrix : List (List ℚ)) (concepts : List String) (students : List String)
    (k : Nat) : ClusteringResult :=
  let nStudents := students.length
  let actualK := min k nStudents
  if actualK < 2 then
    let colMeans := (List.range concepts.length).map
      (fun i => listMean (matrix.map (fun row => row.getD i 0)))
    { clusters := [{
        cluster_label := "Cluster 0",
        centroid := concepts.enum.map (fun ci => (ci.2, colMeans.getD ci.1 0)),
        student_count := nStudents,
        top_weak_concepts := topWeakConcepts colMeans concepts 3,
        suggested_interventions := [] }],
      assignments := students.map (fun s => (s, "Cluster 0")) }
  else
    let fitted := kmeansFit matrix actualK
    let labels := fitted.1
    let centers := fitted.2
    let clusters := (List.range actualK).map (fun i =>
      let mask := labels.map (fun l => l == i)
      let centroid := centers.getD i []
      { cluster_label := "Cluster " ++ toString i,
        centroid := concepts.enum.map (fun ci => (ci.2, centroid.getD ci.1 0)),
        student_count := mask.count true,
        top_weak_concepts := topWeakConcepts centroid concepts 3,
        suggested_interventions :=
          suggestInterventions (topWeakConcepts centroid concepts 3) })
    let assignments := (List.range actualK).flatMap (fun i =>
      let mask := labels.map (fun l => l == i)
      (clusterStudents students mask).map (fun s => (s, "Cluster " ++ toString i)))
    { clusters := clusters, assignments := assignments }

/-!
## Report builder
`report_service.py`, `build_student_report` (lines 25-97) and helpers.
The two branches return structurally different concept-graph payloads: the
zero-results branch passes the raw input `graph_json` through, the other
builds the colored personal graph; `ReportGraph` keeps them apart.
-/

structure PersonalNode where
  id : String
  label : String
  readiness : Option ℚ
  color : String
deriving Repr, DecidableEq

structure PersonalGraph where
  nodes : List PersonalNode
  edges : List JsonEdge
deriving Repr, DecidableEq

inductive ReportGraph where
  | raw (g : GraphJson)
  | colored (g : PersonalGraph)
deriving Repr, DecidableEq

structure ReadinessListEntry where
  concept_id : String
  concept_label : String
  direct_readiness : Option ℚ
  final_readiness : ℚ
  confidence : String
deriving Repr, DecidableEq

structure WeakEntry where
  concept_id : String
  concept_label : String
  readiness : ℚ
  confidence : String
deriving Repr, DecidableEq

structure StudyPlanEntry where
  concept_id : String
  concept_label : String
  readiness : ℚ
  confidence : String
  reason : String
  explanation : String
deriving Repr, DecidableEq

structure StudentReport where
  student_id : String
  exam_id : String
  concept_graph : ReportGraph
  readiness : List ReadinessListEntry
  top_weak_concepts : List WeakEntry
  study_plan : List StudyPlanEntry
deriving Repr, DecidableEq

/-- `_get_concept_label` (lines 192-197). -/
def get_concept_label (g : GraphJson) (cid : String) : String :=
  match g.nodes.find? (fun n => n.id == cid) with
  | some n => n.label.getD cid
  | none => cid

/-- Two-decimal rendering used inside report explanation strings,
approximating Python `f"{x:.2f}"` on exact rationals (round half up).
No claim inspects these strings. -/
def fmt2 (q : ℚ) : String :=
  let scaled : Int := Int.floor (q * 100 + 1/2)
  let sign := if scaled < 0 then "-" else ""
  let n := scaled.natAbs
  sign ++ toString (n / 100) ++ "." ++
    (if n % 100 < 10 then "0" else "") ++ toString (n % 100)

/-- `_build_personal_graph` (lines 100-133): green above 0.7, yellow in
[0.4, 0.7], red below 0.4, gray with null readiness when the student has
no record for the node. -/
def build_personal_graph (g : GraphJson)
    (readinessMap : List (String × ReadinessRecord)) : PersonalGraph :=
  { nodes := g.nodes.map (fun n =>
      match alookup readinessMap n.id with
      | some r =>
          let fin := r.final_readiness
          let color := if 0.7 < fin then "green"
                       else if 0.4 ≤ fin then "yellow" else "red"
          { id := n.id, label := n.label.getD n.id,
            readiness := some fin, color := color }
      | none =>
          { id := n.id, label := n.label.getD n.id,
            readiness := none, color := "gray" }),
    edges := g.edges }

/-- `_build_study_plan` (lines 136-189): concepts with a record and final
readiness below 0.7, in the topological order of the graph, each with a
priority-chosen reason and an assembled explanation string. -/
def build_study_plan (g : GraphJson)
    (readinessMap : List (String × ReadinessRecord)) : List StudyPlanEntry :=
  let G := build_graph g
  let topo := get_topological_order G
  topo.filterMap (fun cid =>
    match alookup readinessMap cid with
    | none => none
    | some r =>
        let fin := r.final_readiness
        if 0.7 ≤ fin then none
        else
          let reason :=
            match r.direct_readiness with
            | some d =>
                if d < 0.6 then "Low direct performance on exam questions"
                else if 0.1 < r.prerequisite_penalty then
                  "Weakness in prerequisite concepts"
                else "Below mastery threshold"
            | none =>
                if 0.1 < r.prerequisite_penalty then
                  "Weakness in prerequisite concepts"
                else "Below mastery threshold"
          let e0 := "Your readiness for this concept is " ++ fmt2 fin ++ ". "
          let e1 := e0 ++ (match r.direct_readiness with
            | some d => "Direct performance: " ++ fmt2 d ++ ". "
            | none => "")
          let e2 := e1 ++ (if 0 < r.prerequisite_penalty then
            "Prerequisite penalty: -" ++ fmt2 r.prerequisite_penalty ++ ". " else "")
          let e3 := e2 ++ (if 0 < r.downstream_boost then
            "Downstream boost: +" ++ fmt2 r.downstream_boost ++ ". " else "")
          some { concept_id := cid,
                 concept_label := get_concept_label g cid,
                 readiness := fin,
                 confidence := r.confidence,
                 reason := reason,
                 explanation := e3.trim })

/-- Stable ascending sort of records by final readiness, modelling Python
`sorted(student_results, key=...)` (Timsort is stable). -/
def insertByFinal (r : ReadinessRecord) :
    List ReadinessRecord → List ReadinessRecord
  | [] => [r]
  | x :: xs =>
      if r.final_readiness < x.final_readiness then r :: x :: xs
      else x :: insertByFinal r xs

def sortByFinal (l : List ReadinessRecord) : List ReadinessRecord :=
  l.foldr insertByFinal []

/-- `build_student_report` (lines 25-97).  The zero-results branch (lines
49-57) returns the **raw input graph JSON** and empty lists; the main branch
returns the colored personal graph, the per-concept readiness list, the 5
lowest-final-readiness concepts, and the study plan.  The `concepts`
parameter is accepted and unused, exactly as in the source. -/
def build_student_report (student_id exam_id : String) (graph_json : GraphJson)
    (readiness_results : List ReadinessRecord) (concepts : List String) :
    StudentReport :=
  let student_results := readiness_results.filter (fun r => r.student_id == student_id)
  if student_results.isEmpty then
    { student_id := student_id, exam_id := exam_id,
      concept_graph := ReportGraph.raw graph_json,
      readiness := [], top_weak_concepts := [], study_plan := [] }
  else
    let readinessMap := student_results.foldl (fun m r => ainsert m r.concept_id r) []
    let personal := build_personal_graph graph_json readinessMap
    let readinessList := student_results.map (fun r =>
      ({ concept_id := r.concept_id,
         concept_label := get_concept_label graph_json r.concept_id,
         direct_readiness := r.direct_readiness,
         final_readiness := r.final_readiness,
         confidence := r.confidence } : ReadinessListEntry))
    let topWeak := ((sortByFinal student_results).take 5).map (fun r =>
      ({ concept_id := r.concept_id,
         concept_label := get_concept_label graph_json r.concept_id,
         readiness := r.final_readiness,
         confidence := r.confidence } : WeakEntry))
    { student_id := student_id, exam_id := exam_id,
      concept_graph := ReportGraph.colored personal,
      readiness := readinessList,
      top_weak_concepts := topWeak,
      study_plan := build_study_plan graph_json readinessMap }

/-!
# Shared concrete inputs

The worked scenario of spec §8: concepts `A → B` (weight 0.5), question
`Q1` (max 10) tagged to `A`, question `Q2` (max 10) tagged to `B`, student
`S1` scoring `Q1 = 8`, `Q2 = 3`.
-/

def exGraph : GraphJson :=
  { nodes := [{ id := "A", label := some "A" }, { id := "B", label := some "B" }],
    edges := [{ source := "A", target := "B", weight := some 0.5 }] }

def exScores : List (String × List (String × ℚ)) := [("S1", [("Q1", 8), ("Q2", 3)])]

def exMax : List (String × ℚ) := [("Q1", 10), ("Q2", 10)]

def exQcm : List (String × List (String × ℚ)) := [("A", [("Q1", 1)]), ("B", [("Q2", 1)])]

/-!
# Helper lemmas
-/

/-- The default-1 max-score lookup is nonnegative when every stored max
score is. -/
theorem alookupD_maxScore_nonneg (maxScores : List (String × ℚ)) (q : String)
    (hms : ∀ p ∈ maxScores, 0 ≤ p.2) : 0 ≤ alookupD maxScores q 1 := by
  unfold alookupD alookup
  cases h : maxScores.find? (fun p => p.1 == q) with
  | none => simp
  | some p =>
      have := hms p (List.mem_of_find?_eq_some h)
      simpa using this

/-- For an attempted question the code normalization (guard `0 < max`)
agrees with the spec normalization (guard `max = 0`) as long as the max
score is nonnegative. -/
theorem normalized_bridge (ss ms : List (String × ℚ)) (q : String) (sc : ℚ)
    (h : alookup ss q = some sc) (h0 : 0 ≤ alookupD ms q 1) :
    (if 0 < alookupD ms q 1 then sc / alookupD ms q 1 else 0)
      = normalizedScoreSpec ss ms q := by
  have hsc : alookupD ss q 0 = sc := by unfold alookupD; rw [h]; rfl
  show _ = (if alookupD ms q 1 = 0 then 0 else alookupD ss q 0 / alookupD ms q 1)
  rcases eq_or_lt_of_le h0 with heq | hlt
  · rw [if_neg (by rw [← heq]; exact lt_irrefl 0), if_pos heq.symm]
  · rw [if_pos hlt, if_neg (ne_of_gt hlt), hsc]

/-- The accumulation loop of Stage 1 computes exactly the spec sums over
the attempted tagged questions, shifted by the accumulator. -/
theorem directFold_go (ss ms : List (String × ℚ)) (hms : ∀ p ∈ ms, 0 ≤ p.2) :
    ∀ (tagged : List (String × ℚ)) (a b : ℚ),
      tagged.foldl (directStep ss ms) (a, b)
        = (a + directSpecNum ss ms (attemptedTagged tagged ss),
           b + directSpecDen (attemptedTagged tagged ss)) := by
  intro tagged
  induction tagged with
  | nil =>
      intro a b
      simp [directSpecNum, directSpecDen, attemptedTagged]
  | cons qw rest ih =>
      intro a b
      rw [List.foldl_cons]
      cases h : alookup ss qw.1 with
      | none =>
          have hstep : directStep ss ms (a, b) qw = (a, b) := by
            unfold directStep; rw [h]
          have hatt : attemptedTagged (qw :: rest) ss = attemptedTagged rest ss := by
            unfold attemptedTagged
            rw [List.filter_cons]
            simp [h]
          rw [hstep, ih a b, hatt]
      | some sc =>
          have hstep : directStep ss ms (a, b) qw
              = (a + qw.2 * normalizedScoreSpec ss ms qw.1, b + qw.2) := by
            unfold directStep
            rw [h]
            show (a + qw.2 * (if 0 < alookupD ms qw.1 1 then sc / alookupD ms qw.1 1 else 0),
                  b + qw.2) = _
            rw [normalized_bridge ss ms qw.1 sc h (alookupD_maxScore_nonneg ms qw.1 hms)]
          have hatt : attemptedTagged (qw :: rest) ss = qw :: attemptedTagged rest ss := by
            unfold attemptedTagged
            rw [List.filter_cons]
            simp [h]
          rw [hstep, ih, hatt]
          unfold directSpecNum directSpecDen
          rw [List.map_cons, List.sum_cons, List.map_cons, List.sum_cons, Prod.mk.injEq]
          constructor <;> ring

/-- `directFold` equals the pair of spec sums. -/
theorem directFold_eq (ss ms : List (String × ℚ)) (hms : ∀ p ∈ ms, 0 ≤ p.2)
    (tagged : List (String × ℚ)) :
    directFold ss ms tagged
      = (directSpecNum ss ms (attemptedTagged tagged ss),
         directSpecDen (attemptedTagged tagged ss)) := by
  unfold directFold
  rw [directFold_go ss ms hms tagged 0 0]
  simp

/-!
# Claims
-/

/-- C1: for every student and concept, when the total weight of the tagged
questions the student attempted is positive (in particular whenever the
student attempted at least one tagged question with positive weight), the
direct readiness equals the weighted average
`Σ(weight * score/max) / Σ(weight)` over exactly those questions, with a
zero contribution for a question whose max score is 0; it is absent
(`none`) when the concept has no tagged questions or the student attempted
none of them; and every emitted pipeline record carries exactly this value
in its `direct_readiness` field. -/
theorem c1_direct_readiness_weighted_average
    (scores : List (String × List (String × ℚ)))
    (maxScores : List (String × ℚ))
    (qcMap : List (String × List (String × ℚ)))
    (student concept : String)
    (hms : ∀ p ∈ maxScores, 0 ≤ p.2) :
    (0 < directSpecDen (attemptedTagged (alookupD qcMap concept [])
          (alookupD scores student [])) →
        compute_direct_readiness scores maxScores qcMap student concept =
          some (directSpecNum (alookupD scores student []) maxScores
                  (attemptedTagged (alookupD qcMap concept [])
                    (alookupD scores student []))
                / directSpecDen (attemptedTagged (alookupD qcMap concept [])
                    (alookupD scores student [])))) ∧
    ((alookupD qcMap concept [] = [] ∨
      attemptedTagged (alookupD qcMap concept []) (alookupD scores student []) = []) →
        compute_direct_readiness scores maxScores qcMap student concept = none) ∧
    (∀ (graphJson : GraphJson) (alpha beta gamma threshold : ℚ) (r : ReadinessRecord),
        r ∈ (run_readiness_pipeline scores maxScores qcMap graphJson
              alpha beta gamma threshold).readiness_results →
        r.direct_readiness
          = compute_direct_readiness scores maxScores qcMap r.student_id r.concept_id) := by
  refine ⟨?_, ?_, ?_⟩
  · intro hpos
    have htagged : ¬((alookupD qcMap concept []).isEmpty = true) := by
      intro hempty
      rw [List.isEmpty_iff] at hempty
      rw [hempty] at hpos
      simp [attemptedTagged, directSpecDen] at hpos
    show (if (alookupD qcMap concept []).isEmpty = true then none
          else
            let studentScores := alookupD scores student []
            let acc := directFold studentScores maxScores (alookupD qcMap concept [])
            if 0 < acc.2 then some (acc.1 / acc.2) else none) = _
    rw [if_neg htagged]
    simp only [directFold_eq (alookupD scores student []) maxScores hms
      (alookupD qcMap concept [])]
    rw [if_pos hpos]
  · intro hcase
    rcases hcase with htag | hatt
    · show (if (alookupD qcMap concept []).isEmpty = true then none
            else
              let studentScores := alookupD scores student []
              let acc := directFold studentScores maxScores (alookupD qcMap concept [])
              if 0 < acc.2 then some (acc.1 / acc.2) else none) = _
      rw [if_pos (List.isEmpty_iff.mpr htag)]
    · by_cases htag : (alookupD qcMap concept []).isEmpty = true
      · show (if (alookupD qcMap concept []).isEmpty = true then none
              else
                let studentScores := alookupD scores student []
                let acc := directFold studentScores maxScores (alookupD qcMap concept [])
                if 0 < acc.2 then some (acc.1 / acc.2) else none) = _
        rw [if_pos htag]
      · show (if (alookupD qcMap concept []).isEmpty = true then none
              else
                let studentScores := alookupD scores student []
                let acc := directFold studentScores maxScores (alookupD qcMap concept [])
                if 0 < acc.2 then some (acc.1 / acc.2) else none) = _
        rw [if_neg htag]
        simp only [directFold_eq (alookupD scores student []) maxScores hms
          (alookupD qcMap concept [])]
        rw [hatt]
        simp [directSpecDen]
  · intro graphJson alpha beta gamma threshold r hr
    simp only [run_readiness_pipeline, List.mem_flatMap, List.mem_map] at hr
    obtain ⟨s, _, c, _, hrec⟩ := hr
    subst hrec
    rfl

/-- C1 witness: in the §8 scenario, direct readiness of `S1` for `A` is
0.8 and for the untagged concept `Z` it is absent. -/
theorem c1_witness :
    compute_direct_readiness exScores exMax exQcm "S1" "A" = some (4/5) ∧
    compute_direct_readiness exScores exMax exQcm "S1" "Z" = none := by
  constructor
  · have h := (c1_direct_readiness_weighted_average exScores exMax exQcm "S1" "A"
      (by intro p hp; fin_cases hp <;> norm_num)).1
      (by simp [exQcm, exScores, directSpecDen, attemptedTagged, alookupD, alookup])
    rw [h]
    simp [exQcm, exScores, exMax, directSpecNum, directSpecDen, attemptedTagged,
      normalizedScoreSpec, alookupD, alookup]
    norm_num
  · exact (c1_direct_readiness_weighted_average exScores exMax exQcm "S1" "Z"
      (by intro p hp; fin_cases hp <;> norm_num)).2.1
      (Or.inl (by simp [alookupD, alookup, exQcm]))

/-- C2: final readiness is the clamp to `[0,1]` of
`alpha * effective_direct - beta * penalty + gamma * boost` (with 0
substituted for absent direct readiness), hence always lies in `[0,1]`;
and every record the pipeline emits carries exactly that clamped value. -/
theorem c2_final_readiness_clamped (alpha beta gamma : ℚ) (direct : Option ℚ)
    (penalty boost : ℚ) :
    compute_final_readiness alpha beta gamma direct penalty boost
      = clamp01 (alpha * effectiveDirect direct - beta * penalty + gamma * boost) ∧
    0 ≤ compute_final_readiness alpha beta gamma direct penalty boost ∧
    compute_final_readiness alpha beta gamma direct penalty boost ≤ 1 ∧
    (∀ (scores : List (String × List (String × ℚ))) (maxScores : List (String × ℚ))
       (qcMap : List (String × List (String × ℚ))) (graphJson : GraphJson)
       (threshold : ℚ) (r : ReadinessRecord),
       r ∈ (run_readiness_pipeline scores maxScores qcMap graphJson
             alpha beta gamma threshold).readiness_results →
       r.final_readiness = compute_final_readiness alpha beta gamma
           r.direct_readiness r.prerequisite_penalty r.downstream_boost ∧
       0 ≤ r.final_readiness ∧ r.final_readiness ≤ 1) := by
  have hb : ∀ x : ℚ, 0 ≤ min (max x 0) 1 ∧ min (max x 0) 1 ≤ 1 := fun x =>
    ⟨le_min (le_max_right x 0) zero_le_one, min_le_right _ _⟩
  refine ⟨?_, ?_, ?_, ?_⟩
  · unfold compute_final_readiness clamp01
    rw [max_comm, min_comm]
  · unfold compute_final_readiness
    exact (hb _).1
  · unfold compute_final_readiness
    exact (hb _).2
  · intro scores maxScores qcMap graphJson threshold r hr
    simp only [run_readiness_pipeline, List.mem_flatMap, List.mem_map] at hr
    obtain ⟨s, _, c, _, hrec⟩ := hr
    subst hrec
    refine ⟨rfl, ?_, ?_⟩
    · show 0 ≤ compute_final_readiness alpha beta gamma _ _ _
      unfold compute_final_readiness
      exact (hb _).1
    · show compute_final_readiness alpha beta gamma _ _ _ ≤ 1
      unfold compute_final_readiness
      exact (hb _).2

/-- One-node scenario used by witnesses: concept `A`, question `Q1`
(max 10, weight 1), student `S1` scoring 8. -/
def tinyGraph : GraphJson := { nodes := [{ id := "A", label := some "A" }], edges := [] }

def tinyScores : List (String × List (String × ℚ)) := [("S1", [("Q1", 8)])]

def tinyMax : List (String × ℚ) := [("Q1", 10)]

def tinyQcm : List (String × List (String × ℚ)) := [("A", [("Q1", 1)])]

/-- The record the pipeline emits for the one-node scenario. -/
def tinyRecord : ReadinessRecord :=
  { student_id := "S1", concept_id := "A", direct_readiness := some (4/5),
    prerequisite_penalty := 0, downstream_boost := 0,
    final_readiness := 4/5, confidence := "low" }

set_option maxHeartbeats 1000000 in
/-- C2 witness: the record emitted by the pipeline in the one-node scenario
equals the clamped formula of its own components and lies in `[0,1]`. -/
theorem c2_witness :
    tinyRecord.final_readiness = compute_final_readiness 1 0.3 0.2
        tinyRecord.direct_readiness tinyRecord.prerequisite_penalty
        tinyRecord.downstream_boost ∧
    0 ≤ tinyRecord.final_readiness ∧ tinyRecord.final_readiness ≤ 1 :=
  (c2_final_readiness_clamped 1 0.3 0.2 (some (4/5)) 0 0).2.2.2
    tinyScores tinyMax tinyQcm tinyGraph 0.6 tinyRecord
    (by
      have hres : (run_readiness_pipeline tinyScores tinyMax tinyQcm tinyGraph
          1 0.3 0.2 0.6).readiness_results = [tinyRecord] := by
        simp [run_readiness_pipeline, build_graph, tinyGraph, tinyScores, tinyMax,
          tinyQcm, DiGraph.addNode, DiGraph.addEdge, DiGraph.ensureNode,
          DiGraph.hasNode, DiGraph.hasEdge, adjacencyOf, sortStrings, insertString,
          compute_direct_readiness, directFold, directStep, alookupD, alookup,
          compute_prerequisite_penalty, compute_downstream_boost,
          compute_final_readiness, effectiveDirect, compute_confidence,
          conceptMeanDirect, listMean, listVar, levels, levelOfNat, tinyRecord]
        norm_num
      rw [hres]
      exact List.mem_cons_self _ _)

/-- The children of `p`: concepts with a positive-weight edge `p → d`. -/
def childrenOf (adjacency : String → String → ℚ) (concepts : List String)
    (p : String) : List String :=
  concepts.filter (fun d => 0 < adjacency p d)

/-- Guarded accumulation equals the sum over the filtered list. -/
theorem foldl_if_add {α : Type} (p : α → Prop) [DecidablePred p] (f : α → ℚ)
    (l : List α) :
    ∀ a : ℚ, l.foldl (fun acc d => if p d then acc + f d else acc) a
      = a + ((l.filter (fun d => decide (p d))).map f).sum := by
  induction l with
  | nil => intro a; simp
  | cons x xs ih =>
      intro a
      rw [List.foldl_cons, List.filter_cons]
      by_cases h : p x
      · rw [if_pos h, if_pos (by simpa using h), ih, List.map_cons, List.sum_cons]
        ring
      · rw [if_neg h, if_neg (by simpa using h), ih]

/-- C3: the downstream boost equals
`min(0.2, Σ over children d of (edge_weight * 0.4) * effective_direct(d))`
with the cap applied once after the summation, and therefore never
exceeds 0.2. -/
theorem c3_downstream_boost_capped (adjacency : String → String → ℚ)
    (direct : String → Option ℚ) (concepts : List String) (p : String) :
    compute_downstream_boost adjacency direct concepts p
      = min 0.2 (((childrenOf adjacency concepts p).map
          (fun d => (adjacency p d * 0.4) * effectiveDirect (direct d))).sum) ∧
    compute_downstream_boost adjacency direct concepts p ≤ 0.2 := by
  have hmain : compute_downstream_boost adjacency direct concepts p
      = min (((childrenOf adjacency concepts p).map
          (fun d => (adjacency p d * 0.4) * effectiveDirect (direct d))).sum) 0.2 := by
    unfold compute_downstream_boost childrenOf
    rw [foldl_if_add (fun d => 0 < adjacency p d)
      (fun d => (adjacency p d * 0.4) * effectiveDirect (direct d)) concepts 0,
      zero_add]
  refine ⟨by rw [hmain, min_comm], by rw [hmain]; exact min_le_right _ _⟩

/-- A list of length at most one has zero population variance (in `ℚ`,
`listVar []` divides by zero and is 0). -/
theorem listVar_short (xs : List ℚ) (h : xs.length ≤ 1) : listVar xs = 0 := by
  match xs, h with
  | [], _ => simp [listVar, listMean]
  | [x], _ => simp [listVar, listMean]

/-- The `len(means) > 1` guard of `compute_confidence` is redundant for the
population variance. -/
theorem variance_guard_eq (ms : List ℚ) :
    (if 1 < ms.length then listVar ms else 0) = listVar ms := by
  by_cases h : 1 < ms.length
  · rw [if_pos h]
  · rw [if_neg h, listVar_short ms (by omega)]

/-- `ordMinLevel` realizes the minimum of the numeric levels. -/
theorem levels_ordMin (a b : String) :
    levels (ordMinLevel a b) = min (levels a) (levels b) := by
  unfold ordMinLevel
  by_cases h : levels a ≤ levels b
  · rw [if_pos h, min_eq_left h]
  · rw [if_neg h, min_eq_right (le_of_not_le h)]

/-- On the three level strings, `levelOfNat ∘ min ∘ levels` is the ordinal
minimum. -/
theorem levelOfNat_min (a b : String)
    (ha : a = "high" ∨ a = "medium" ∨ a = "low")
    (hb : b = "high" ∨ b = "medium" ∨ b = "low") :
    levelOfNat (min (levels a) (levels b)) = ordMinLevel a b := by
  rcases ha with h | h | h <;> rcases hb with h2 | h2 | h2 <;>
    subst h <;> subst h2 <;> rfl

theorem claimF1_mem (n : Nat) :
    claimF1 n = "high" ∨ claimF1 n = "medium" ∨ claimF1 n = "low" := by
  unfold claimF1; split_ifs <;> simp

theorem claimF2_mem (x : ℚ) :
    claimF2 x = "high" ∨ claimF2 x = "medium" ∨ claimF2 x = "low" := by
  unfold claimF2; split_ifs <;> simp

theorem claimF3_mem (x : ℚ) :
    claimF3 x = "high" ∨ claimF3 x = "medium" ∨ claimF3 x = "low" := by
  unfold claimF3; split_ifs <;> simp

theorem ordMinLevel_mem (a b : String)
    (ha : a = "high" ∨ a = "medium" ∨ a = "low")
    (hb : b = "high" ∨ b = "medium" ∨ b = "low") :
    ordMinLevel a b = "high" ∨ ordMinLevel a b = "medium" ∨
      ordMinLevel a b = "low" := by
  unfold ordMinLevel
  split_ifs <;> [exact ha; exact hb]

/-- The code F1 (with its boolean `== 2` test) equals the claim F1. -/
theorem f1_bridge (n : Nat) :
    (if n ≥ 3 then "high" else if n == 2 then "medium" else "low")
      = claimF1 n := by
  unfold claimF1
  by_cases h3 : 3 ≤ n
  · rw [if_pos h3, if_pos h3]
  · rw [if_neg h3, if_neg h3]
    by_cases h2 : n = 2
    · rw [if_pos (by simp [h2]), if_pos h2]
    · rw [if_neg (by simp [h2]), if_neg h2]

/-- The code F2 equals the claim F2. -/
theorem f2_bridge (x : ℚ) :
    (if x ≥ 10 then "high" else if x ≥ 5 then "medium" else "low")
      = claimF2 x := by
  unfold claimF2
  rcases le_or_lt 10 x with h | h
  · rw [if_pos h]
  · rw [if_neg (not_le.mpr h)]

/-- The code F3 threshold map equals the claim F3. -/
theorem f3_bridge (v : ℚ) :
    (if v < 0.15 then "high" else if v ≤ 0.30 then "medium" else "low")
      = claimF3 v := rfl

/-- C4: the confidence of a concept is the ordinal minimum of the three
factors, with the threshold maps of the claim: F1 on the tagged-question
count, F2 on the total max-score points of the tagged questions, F3 on the
population variance (students averaged first) across the concept and its
direct parents and children, 0 without neighbors. -/
theorem c4_confidence_is_ordinal_min (concept : String)
    (qcMap : List (String × List (String × ℚ)))
    (maxScores : List (String × ℚ))
    (students : List String) (direct : String → String → Option ℚ)
    (concepts : List String) (adjacency : String → String → ℚ) :
    compute_confidence concept qcMap maxScores students direct concepts adjacency
      = ordMinLevel (claimF1 (alookupD qcMap concept []).length)
          (ordMinLevel
            (claimF2 (((alookupD qcMap concept []).map
                (fun qw => alookupD maxScores qw.1 1)).sum))
            (claimF3 (claimF3Variance concept students direct concepts adjacency))) := by
  have hv : claimF3Variance concept students direct concepts adjacency
      = (if (concepts.filter (fun c2 =>
              0 < adjacency concept c2 || 0 < adjacency c2 concept)).isEmpty
         then (0 : ℚ)
         else listVar ((concept :: concepts.filter (fun c2 =>
              0 < adjacency concept c2 || 0 < adjacency c2 concept)).filterMap
                (conceptMeanDirect students direct))) := rfl
  unfold compute_confidence
  simp only [variance_guard_eq]
  rw [← hv, f1_bridge, f2_bridge, f3_bridge,
    ← levels_ordMin (claimF2 _) (claimF3 _),
    levelOfNat_min _ _ (claimF1_mem _)
      (ordMinLevel_mem _ _ (claimF2_mem _) (claimF3_mem _))]

/-- C5: `apply_patch` is atomic.  If the four structural phases collect any
error, the original JSON is returned unchanged with those errors; if they
succeed but the patched graph fails the acyclicity check, the original JSON
is returned unchanged with one cycle path and a cycle error; only when the
phases are clean and the result acyclic does the patch commit, returning
the serialized patched graph — never a partially applied one. -/
theorem c5_apply_patch_atomic (g : GraphJson) (p : GraphPatch) :
    ((applyPatchOps (build_graph g) p).2 ≠ [] →
       apply_patch g p = (g, false, none, (applyPatchOps (build_graph g) p).2)) ∧
    ((applyPatchOps (build_graph g) p).2 = [] →
       isDirectedAcyclicGraph (applyPatchOps (build_graph g) p).1 = false →
       apply_patch g p = (g, false,
         some (find_cycle (applyPatchOps (build_graph g) p).1),
         [PatchErr.patchCycle (find_cycle (applyPatchOps (build_graph g) p).1)])) ∧
    ((applyPatchOps (build_graph g) p).2 = [] →
       isDirectedAcyclicGraph (applyPatchOps (build_graph g) p).1 = true →
       apply_patch g p
         = (graph_to_json (applyPatchOps (build_graph g) p).1, true, none, [])) := by
  refine ⟨?_, ?_, ?_⟩
  · intro herr
    unfold apply_patch
    rw [if_pos (by simpa [List.isEmpty_iff] using herr)]
  · intro herr hcyc
    unfold apply_patch
    rw [if_neg (by simp [List.isEmpty_iff, herr]), if_neg (by simp [hcyc])]
  · intro herr hdag
    unfold apply_patch
    rw [if_neg (by simp [List.isEmpty_iff, herr]), if_pos hdag]

/-- The §8 cycle scenario: adding edge `B → A` to `A → B`. -/
def cyclePatch : GraphPatch :=
  { add_nodes := [], remove_nodes := [],
    add_edges := [{ source := "B", target := "A", weight := 0.9 }],
    remove_edges := [] }

/-- A patch with a per-operation error: removing a nonexistent node. -/
def badPatch : GraphPatch :=
  { add_nodes := [], remove_nodes := ["Z"], add_edges := [], remove_edges := [] }

/-- C5 witness: on the §8 graph, the cyclic patch and the erroneous patch
both return the original JSON unchanged (with the cycle path `[A, B, A]`
in the cyclic case), exercising both rejection branches of the theorem. -/
theorem c5_witness :
    apply_patch exGraph cyclePatch
      = (exGraph, false, some ["A", "B", "A"],
         [PatchErr.patchCycle ["A", "B", "A"]]) ∧
    apply_patch exGraph badPatch
      = (exGraph, false, none, [PatchErr.removeNodeMissing "Z"]) := by
  constructor
  · have h := (c5_apply_patch_atomic exGraph cyclePatch).2.1
      (by with_unfolding_all rfl) (by with_unfolding_all rfl)
    rw [h]
    with_unfolding_all rfl
  · have h := (c5_apply_patch_atomic exGraph badPatch).1
      (by
        have hops : (applyPatchOps (build_graph exGraph) badPatch).2
            = [PatchErr.removeNodeMissing "Z"] := by with_unfolding_all rfl
        rw [hops]
        simp)
    rw [h]
    with_unfolding_all rfl

/-- An input that claim C6 says `build` must reject: the edge target `B`
is not a defined node and the weight 7 is outside `[0, 1]`. -/
def badBuildInput : GraphJson :=
  { nodes := [{ id := "A", label := some "A" }],
    edges := [{ source := "A", target := "B", weight := some 7 }] }

/-- C6 counterexample: on an input with an undefined edge target and an
out-of-range weight, `build_graph` does **not** fail — it returns a graph,
auto-creating the undefined node `B` (without a label attribute) and
keeping the weight 7.  The rejection the claim describes happens in
`validate_graph` instead, which flags this same input as invalid. -/
theorem c6_counterexample :
    build_graph badBuildInput
      = { nodes := [("A", some "A"), ("B", none)], edges := [("A", "B", 7)] } ∧
    (validate_graph badBuildInput).1 = false := by
  constructor <;> with_unfolding_all rfl

/-- C6 amended: `build_graph` is total and never raises; an edge that
references an undefined node id or carries a weight outside `[0, 1]` is
instead rejected by `validate_graph`, which returns invalid with a
nonempty structural error list. -/
theorem c6_amended_validate_rejects (g : GraphJson)
    (h : ∃ e ∈ g.edges,
      ¬ ((g.nodes.map (fun n => n.id)).contains e.source = true) ∨
      ¬ ((g.nodes.map (fun n => n.id)).contains e.target = true) ∨
      e.weight.getD 0.5 < 0 ∨ 1 < e.weight.getD 0.5) :
    (validate_graph g).1 = false ∧ (validate_graph g).2.1 ≠ [] := by
  obtain ⟨e, he, hbad⟩ := h
  have he2 : e ∈ List.map Prod.snd g.edges.enum := by
    rw [List.enum_map_snd]; exact he
  obtain ⟨pe, hpe, hpee⟩ := List.mem_map.mp he2
  have hkey : validate_errors g ≠ [] := by
    intro hnil
    unfold validate_errors at hnil
    rw [List.flatten_eq_nil_iff] at hnil
    have hfe := hnil _ (List.mem_map_of_mem _ hpe)
    rw [hpee] at hfe
    rcases List.append_eq_nil.mp hfe with ⟨h12, h3⟩
    rcases List.append_eq_nil.mp h12 with ⟨h1, h2⟩
    rcases hbad with hb | hb | hb | hb
    · rw [if_neg hb] at h1; exact List.cons_ne_nil _ _ h1
    · rw [if_neg hb] at h2; exact List.cons_ne_nil _ _ h2
    · rw [if_pos (by simp [hb])] at h3; exact List.cons_ne_nil _ _ h3
    · rw [if_pos (by simp [hb])] at h3; exact List.cons_ne_nil _ _ h3
  unfold validate_graph
  rw [if_pos (by simpa [List.isEmpty_iff] using hkey)]
  exact ⟨rfl, hkey⟩

/-- C6 witness for the amended claim: `validate_graph` rejects the concrete
bad input (undefined target, weight 7). -/
theorem c6_witness :
    (validate_graph badBuildInput).1 = false ∧
    (validate_graph badBuildInput).2.1 ≠ [] :=
  c6_amended_validate_rejects badBuildInput
    ⟨{ source := "A", target := "B", weight := some 7 },
     by simp [badBuildInput],
     Or.inr (Or.inr (Or.inr (by norm_num)))⟩

/-- Deduplication preserves membership. -/
theorem mem_dedupKeys (x : String) (l : List String) :
    x ∈ dedupKeys l ↔ x ∈ l := by
  induction l using dedupKeys.induct with
  | case1 => simp [dedupKeys]
  | case2 k rest ih =>
      rw [dedupKeys]
      simp only [List.mem_cons, ih, List.mem_filter]
      by_cases hx : x = k <;> simp [hx]

/-- In-place overwrite keeps the key list. -/
theorem ainsert_overwrite_keys {α : Type} (k : String) (v : α) (d : List (String × α)) :
    (d.map (fun p => if p.1 == k then (k, v) else p)).map Prod.fst
      = d.map Prod.fst := by
  induction d with
  | nil => rfl
  | cons p d ih =>
      rw [List.map_cons, List.map_cons, List.map_cons, ih]
      by_cases hp : p.1 == k
      · rw [if_pos hp]
        simp only [List.cons.injEq, and_true]
        exact (eq_of_beq hp).symm
      · rw [if_neg hp]

/-- Key membership after a dict insertion. -/
theorem ainsert_keys_mem {α : Type} (d : List (String × α)) (k : String) (v : α)
    (x : String) :
    x ∈ (ainsert d k v).map Prod.fst ↔ x ∈ d.map Prod.fst ∨ x = k := by
  unfold ainsert
  by_cases hf : (d.find? (fun p => p.1 == k)).isSome = true
  · rw [if_pos hf, ainsert_overwrite_keys]
    obtain ⟨p, hp, hpk⟩ := List.find?_isSome.mp hf
    have hk : k ∈ d.map Prod.fst :=
      List.mem_map.mpr ⟨p, hp, eq_of_beq hpk⟩
    constructor
    · exact Or.inl
    · rintro (h | h)
      · exact h
      · exact h ▸ hk
  · rw [if_neg hf, List.map_append]
    simp

/-- Key membership of the built question-concept map: exactly the concept
ids of the mapping rows (plus whatever the accumulator already holds). -/
theorem buildQcMap_go_keys_mem (x : String) (rows : List QcmRow) :
    ∀ (d : List (String × List (String × ℚ))),
    (x ∈ ((rows.foldl (fun d r =>
        ainsert d r.concept_id
          ((alookupD d r.concept_id []) ++ [(r.question_id_external, r.weight)])) d).map
            Prod.fst)
      ↔ x ∈ d.map Prod.fst ∨ x ∈ rows.map (fun r => r.concept_id)) := by
  induction rows with
  | nil => intro d; simp
  | cons r rows ih =>
      intro d
      rw [List.foldl_cons, ih, ainsert_keys_mem, List.map_cons]
      simp only [List.mem_cons]
      tauto

/-- The fallback graph has exactly the mapped concepts as (isolated) nodes. -/
theorem fallback_nodes_iff (qcmRows : List QcmRow) (c : String) :
    c ∈ (fallbackGraph (buildQcMap qcmRows)).nodes.map (fun n => n.id)
      ↔ c ∈ qcmRows.map (fun r => r.concept_id) := by
  unfold fallbackGraph
  rw [List.map_map]
  have hmap : ((fun (n : JsonNode) => n.id) ∘ fun c => ({ id := c, label := some c } : JsonNode))
      = id := rfl
  rw [hmap, List.map_id, mem_dedupKeys]
  unfold buildQcMap
  rw [buildQcMap_go_keys_mem c qcmRows []]
  simp

/-- The input rows of the C7 scenarios. -/
def exScoreRows : List ScoreRow :=
  [{ student_id_external := "S1", question_id_external := "Q1",
     score := 8, max_score := 10 }]

def exQcmRows : List QcmRow :=
  [{ concept_id := "C1", question_id_external := "Q1", weight := 1 }]

def emptyGraphJson : GraphJson := { nodes := [], edges := [] }

/-- C7 counterexample: with a stored-but-**empty** graph and a nonempty
question-concept map, the endpoint succeeds but processes **zero**
concepts — it does not fall back to one isolated node per mapped concept
(here `C1`), contradicting the claimed fallback "on an empty or missing
concept graph".  The fallback happens only when no graph row exists. -/
theorem c7_counterexample :
    (compute_readiness exScoreRows exQcmRows (some emptyGraphJson)
        1 0.3 0.2 0.6).map (fun r => r.concepts) = Except.ok ([] : List String) ∧
    exQcmRows.map (fun r => r.concept_id) = ["C1"] := by
  constructor
  · with_unfolding_all rfl
  · rfl

/-- C7 amended: the endpoint fails with the no-scores `InputError` when the
score rows are empty, then with the no-mapping `InputError` when the
mapping rows are empty (nothing is computed in either case); when no graph
row exists it runs the pipeline on the fallback graph, which has no edges
and exactly one node per concept of the question-concept map; when a graph
row exists — even an empty one — that stored graph is used as-is. -/
theorem c7_amended_input_errors_and_fallback
    (scoreRows : List ScoreRow) (qcmRows : List QcmRow)
    (graphRow : Option GraphJson) (alpha beta gamma threshold : ℚ) :
    (scoreRows = [] →
       compute_readiness scoreRows qcmRows graphRow alpha beta gamma threshold
         = .error .noScores) ∧
    (scoreRows ≠ [] → qcmRows = [] →
       compute_readiness scoreRows qcmRows graphRow alpha beta gamma threshold
         = .error .noMapping) ∧
    (scoreRows ≠ [] → qcmRows ≠ [] → graphRow = none →
       compute_readiness scoreRows qcmRows graphRow alpha beta gamma threshold
         = .ok (run_readiness_pipeline (buildScoresDict scoreRows)
             (buildMaxScores scoreRows) (buildQcMap qcmRows)
             (fallbackGraph (buildQcMap qcmRows)) alpha beta gamma threshold) ∧
       (fallbackGraph (buildQcMap qcmRows)).edges = [] ∧
       (∀ c, c ∈ (fallbackGraph (buildQcMap qcmRows)).nodes.map (fun n => n.id)
          ↔ c ∈ qcmRows.map (fun r => r.concept_id))) ∧
    (∀ gj, scoreRows ≠ [] → qcmRows ≠ [] → graphRow = some gj →
       compute_readiness scoreRows qcmRows graphRow alpha beta gamma threshold
         = .ok (run_readiness_pipeline (buildScoresDict scoreRows)
             (buildMaxScores scoreRows) (buildQcMap qcmRows) gj
             alpha beta gamma threshold)) := by
  refine ⟨?_, ?_, ?_, ?_⟩
  · intro hs
    unfold compute_readiness
    rw [if_pos (List.isEmpty_iff.mpr hs)]
  · intro hs hq
    unfold compute_readiness
    rw [if_neg (by simpa [List.isEmpty_iff] using hs),
      if_pos (List.isEmpty_iff.mpr hq)]
  · intro hs hq hg
    refine ⟨?_, rfl, fun c => fallback_nodes_iff qcmRows c⟩
    unfold compute_readiness
    rw [if_neg (by simpa [List.isEmpty_iff] using hs),
      if_neg (by simpa [List.isEmpty_iff] using hq), hg]
  · intro gj hs hq hg
    unfold compute_readiness
    rw [if_neg (by simpa [List.isEmpty_iff] using hs),
      if_neg (by simpa [List.isEmpty_iff] using hq), hg]

/-- C7 witness: both `InputError` branches, the fallback on a missing graph
row, and the node set of the fallback graph, at concrete inputs. -/
theorem c7_witness :
    compute_readiness [] exQcmRows none 1 0.3 0.2 0.6 = .error .noScores ∧
    compute_readiness exScoreRows [] none 1 0.3 0.2 0.6 = .error .noMapping ∧
    compute_readiness exScoreRows exQcmRows none 1 0.3 0.2 0.6
      = .ok (run_readiness_pipeline (buildScoresDict exScoreRows)
          (buildMaxScores exScoreRows) (buildQcMap exQcmRows)
          (fallbackGraph (buildQcMap exQcmRows)) 1 0.3 0.2 0.6) ∧
    ("C1" ∈ (fallbackGraph (buildQcMap exQcmRows)).nodes.map (fun n => n.id)
      ↔ "C1" ∈ exQcmRows.map (fun r => r.concept_id)) := by
  refine ⟨?_, ?_, ?_, ?_⟩
  · exact (c7_amended_input_errors_and_fallback [] exQcmRows none 1 0.3 0.2 0.6).1 rfl
  · exact (c7_amended_input_errors_and_fallback exScoreRows [] none 1 0.3 0.2 0.6).2.1
      (by simp [exScoreRows]) rfl
  · exact ((c7_amended_input_errors_and_fallback exScoreRows exQcmRows none
      1 0.3 0.2 0.6).2.2.1 (by simp [exScoreRows]) (by simp [exQcmRows]) rfl).1
  · exact ((c7_amended_input_errors_and_fallback exScoreRows exQcmRows none
      1 0.3 0.2 0.6).2.2.1 (by simp [exScoreRows]) (by simp [exQcmRows]) rfl).2.2 "C1"

/-- C9 counterexample: for a student with zero readiness results the report
is **not** an empty report — its concept graph is the raw input graph
passed through unchanged (here the two-node §8 graph), only the three lists
are empty. -/
theorem c9_counterexample :
    (build_student_report "S1" "E1" exGraph [] []).concept_graph
      = ReportGraph.raw exGraph ∧
    exGraph.nodes.length = 2 := by
  constructor
  · with_unfolding_all rfl
  · rfl

/-- C9 amended: for a student none of whose records match, the report
builder does not fail: it returns the report with empty readiness,
weak-concept and study-plan lists and the **input graph JSON passed through
unchanged** (not an empty graph). -/
theorem c9_amended_empty_lists_raw_graph (student_id exam_id : String)
    (graph_json : GraphJson) (readiness_results : List ReadinessRecord)
    (concepts : List String)
    (h : ∀ r ∈ readiness_results, r.student_id ≠ student_id) :
    build_student_report student_id exam_id graph_json readiness_results concepts
      = { student_id := student_id, exam_id := exam_id,
          concept_graph := ReportGraph.raw graph_json,
          readiness := [], top_weak_concepts := [], study_plan := [] } := by
  have hfilter : readiness_results.filter (fun r => r.student_id == student_id) = [] :=
    List.filter_eq_nil_iff.mpr (fun r hr => by simpa using h r hr)
  simp only [build_student_report, hfilter]
  rfl

/-- A record of a different student, used by the C9 witness. -/
def otherRecord : ReadinessRecord :=
  { student_id := "S2", concept_id := "A", direct_readiness := none,
    prerequisite_penalty := 0, downstream_boost := 0, final_readiness := 0,
    confidence := "low" }

/-- C9 witness: with only another student's record present, `S1` gets the
pass-through graph and empty lists. -/
theorem c9_witness :
    build_student_report "S1" "E1" exGraph [otherRecord] []
      = { student_id := "S1", exam_id := "E1",
          concept_graph := ReportGraph.raw exGraph,
          readiness := [], top_weak_concepts := [], study_plan := [] } :=
  c9_amended_empty_lists_raw_graph "S1" "E1" exGraph [otherRecord] []
    (by intro r hr; fin_cases hr; simp [otherRecord])

/-!
Counting lemmas for the clustering partition (C10).
-/

theorem count_flatMap {α β : Type} [BEq α] (f : β → List α) (l : List β) (a : α) :
    (l.flatMap f).count a = (l.map (fun x => (f x).count a)).sum := by
  induction l with
  | nil => simp
  | cons x xs ih => simp [List.flatMap_cons, List.count_append, ih]

theorem sum_map_add {α : Type} (f g : α → Nat) (l : List α) :
    (l.map (fun x => f x + g x)).sum = (l.map f).sum + (l.map g).sum := by
  induction l with
  | nil => simp
  | cons x xs ih => simp only [List.map_cons, List.sum_cons, ih]; omega

/-- The indicator of `j` summed over `range K` is 1 when `j < K`. -/
theorem sum_indicator_range (K j : Nat) (hj : j < K) :
    ((List.range K).map (fun i => if (j == i) = true then 1 else 0)).sum = 1 := by
  induction K with
  | zero => omega
  | succ K ih =>
      rw [List.range_succ, List.map_append, List.sum_append]
      by_cases h : j < K
      · rw [ih h]
        have hne : j ≠ K := Nat.ne_of_lt h
        simp [hne]
      · have hjk : j = K := by omega
        subst hjk
        have hz : ((List.range j).map (fun i => if (j == i) = true then 1 else 0)).sum
            = 0 := by
          apply List.sum_eq_zero
          intro x hx
          obtain ⟨i, hi, rfl⟩ := List.mem_map.mp hx
          rw [List.mem_range] at hi
          have : (j == i) = false := by simp; omega
          simp [this]
        rw [hz]
        simp

theorem count_map_fst {β : Type} (w : List (String × β)) (s : String) :
    (w.map Prod.fst).count s = w.countP (fun p => p.1 == s) := by
  induction w with
  | nil => rfl
  | cons p w ih => simp [List.count_cons, List.countP_cons, ih]

/-- Summing the two-sided counts over the label range recovers the count of
the key alone, when every label is below the range bound. -/
theorem countP_zip_indicator (K : Nat) (s : String) :
    ∀ (z : List (String × Nat)), (∀ p ∈ z, p.2 < K) →
      ((List.range K).map
        (fun i => z.countP (fun p => p.1 == s && p.2 == i))).sum
        = z.countP (fun p => p.1 == s) := by
  intro z
  induction z with
  | nil => intro _; simp
  | cons p z ih =>
      intro hb
      have hb2 : ∀ q ∈ z, q.2 < K := fun q hq => hb q (List.mem_cons_of_mem _ hq)
      have hpK : p.2 < K := hb p (List.mem_cons_self _ _)
      simp only [List.countP_cons]
      rw [sum_map_add (fun i => z.countP (fun q => q.1 == s && q.2 == i))
        (fun i => if (p.1 == s && p.2 == i) = true then 1 else 0), ih hb2]
      cases hps : (p.1 == s)
      · simp [hps]
      · simp only [hps, Bool.true_and]
        rw [sum_indicator_range K p.2 hpK]
        simp

/-- Σ over `range K` of per-label counts is the list length when all
labels are below `K`. -/
theorem sum_count_range (K : Nat) :
    ∀ (labels : List Nat), (∀ l ∈ labels, l < K) →
      ((List.range K).map (fun i => labels.count i)).sum = labels.length := by
  intro labels
  induction labels with
  | nil => intro _; simp
  | cons x xs ih =>
      intro hb
      simp only [List.count_cons]
      rw [sum_map_add (fun i => xs.count i) (fun i => if (x == i) = true then 1 else 0),
        ih (fun l hl => hb l (List.mem_cons_of_mem _ hl)),
        sum_indicator_range K x (hb x (List.mem_cons_self _ _))]
      simp

/-- `mask.sum` over `labels == i` is the count of label `i`. -/
theorem mask_count_true (labels : List Nat) (i : Nat) :
    (labels.map (fun l => l == i)).count true = labels.count i := by
  induction labels with
  | nil => rfl
  | cons x xs ih => simp [List.count_cons, ih]

/-- The mask-based member list is the label-filtered projection of
`zip students labels`. -/
theorem clusterStudents_mask (i : Nat) :
    ∀ (students : List String) (labels : List Nat),
      clusterStudents students (labels.map (fun l => l == i))
        = ((students.zip labels).filter (fun p => p.2 == i)).map Prod.fst := by
  intro students
  induction students with
  | nil => intro labels; rfl
  | cons s ss ih =>
      intro labels
      cases labels with
      | nil => rfl
      | cons l ls =>
          unfold clusterStudents at ih ⊢
          rw [List.map_cons, List.zip_cons_cons, List.zip_cons_cons,
            List.filter_cons, List.filter_cons]
          cases h : (l == i)
          · simp [h]
            exact ih ls
          · simp [h]
            exact ih ls

theorem count_bucket_countP (z : List (String × Nat)) (i : Nat) (s : String) :
    ((z.filter (fun p => p.2 == i)).map Prod.fst).count s
      = z.countP (fun p => p.1 == s && p.2 == i) := by
  rw [count_map_fst, List.countP_filter]

theorem countP_zip_fst_eq_count (s : String) :
    ∀ (students : List String) (labels : List Nat),
      labels.length = students.length →
      (students.zip labels).countP (fun p => p.1 == s) = students.count s := by
  intro students
  induction students with
  | nil => intro labels _; simp
  | cons x xs ih =>
      intro labels h
      cases labels with
      | nil => simp at h
      | cons l ls =>
          rw [List.zip_cons_cons, List.countP_cons, List.count_cons,
            ih ls (by simpa using h)]

/-- With distinct keys, the second component paired with a key in a zip is
unique. -/
theorem zip_nodup_snd_unique {β : Type} (s : String) (a b : β) :
    ∀ (students : List String) (l : List β), students.Nodup →
      (s, a) ∈ students.zip l → (s, b) ∈ students.zip l → a = b := by
  intro students
  induction students with
  | nil => intro l _ ha _; simp at ha
  | cons x xs ih =>
      intro l hnd ha hb
      cases l with
      | nil => simp at ha
      | cons y ys =>
          have hx : x ∉ xs := (List.nodup_cons.mp hnd).1
          rw [List.zip_cons_cons, List.mem_cons] at ha hb
          rcases ha with ha | ha <;> rcases hb with hb | hb
          · rw [Prod.mk.injEq] at ha hb
            rw [ha.2, hb.2]
          · rw [Prod.mk.injEq] at ha
            exact absurd (ha.1 ▸ (List.of_mem_zip hb).1) hx
          · rw [Prod.mk.injEq] at hb
            exact absurd (hb.1 ▸ (List.of_mem_zip ha).1) hx
          · exact ih ys (List.nodup_cons.mp hnd).2 ha hb

/-- C10: for every readiness matrix, concept list, non-empty list of
distinct students, and cluster count, and for any fitted model satisfying
the scikit-learn `fit_predict` contract (one label below `actual_k` per
student row), `run_clustering` assigns every student exactly one cluster
label, every assigned label names a returned cluster, and the returned
cluster sizes sum to the number of students. -/
theorem c10_clustering_partition
    (kmeansFit : List (List ℚ) → Nat → List Nat × List (List ℚ))
    (matrix : List (List ℚ)) (concepts : List String) (students : List String)
    (k : Nat)
    (hne : students ≠ [])
    (hnodup : students.Nodup)
    (hlen : 2 ≤ min k students.length →
      (kmeansFit matrix (min k students.length)).1.length = students.length)
    (hbound : 2 ≤ min k students.length →
      ∀ l ∈ (kmeansFit matrix (min k students.length)).1,
        l < min k students.length) :
    (∀ s : String,
      ((run_clustering kmeansFit matrix concepts students k).assignments.map
        Prod.fst).count s = students.count s) ∧
    (∀ s lab lab2,
      (s, lab) ∈ (run_clustering kmeansFit matrix concepts students k).assignments →
      (s, lab2) ∈ (run_clustering kmeansFit matrix concepts students k).assignments →
      lab = lab2) ∧
    (∀ s lab,
      (s, lab) ∈ (run_clustering kmeansFit matrix concepts students k).assignments →
      ∃ cl ∈ (run_clustering kmeansFit matrix concepts students k).clusters,
        cl.cluster_label = lab) ∧
    (((run_clustering kmeansFit matrix concepts students k).clusters.map
        (fun c => c.student_count)).sum = students.length) := by
  by_cases hK : min k students.length < 2
  case pos =>
    have hassign : (run_clustering kmeansFit matrix concepts students k).assignments
        = students.map (fun s => (s, "Cluster 0")) := by
      simp only [run_clustering]
      rw [if_pos hK]
    have hclusters : (run_clustering kmeansFit matrix concepts students k).clusters
        = [{ cluster_label := "Cluster 0",
             centroid := concepts.enum.map (fun ci =>
               (ci.2, ((List.range concepts.length).map
                 (fun i => listMean (matrix.map (fun row => row.getD i 0)))).getD ci.1 0)),
             student_count := students.length,
             top_weak_concepts := topWeakConcepts ((List.range concepts.length).map
               (fun i => listMean (matrix.map (fun row => row.getD i 0)))) concepts 3,
             suggested_interventions := [] }] := by
      simp only [run_clustering]
      rw [if_pos hK]
    refine ⟨?_, ?_, ?_, ?_⟩
    · intro s
      rw [hassign, List.map_map]
      have hcomp : (Prod.fst ∘ fun s => (s, "Cluster 0")) = (id : String → String) := rfl
      rw [hcomp, List.map_id]
    · intro s lab lab2 ha hb
      rw [hassign] at ha hb
      obtain ⟨a, _, haa⟩ := List.mem_map.mp ha
      obtain ⟨b2, _, hbb⟩ := List.mem_map.mp hb
      rw [Prod.mk.injEq] at haa hbb
      rw [← haa.2, ← hbb.2]
    · intro s lab ha
      rw [hassign] at ha
      obtain ⟨a, _, haa⟩ := List.mem_map.mp ha
      rw [Prod.mk.injEq] at haa
      rw [hclusters]
      exact ⟨_, List.mem_cons_self _ _, haa.2⟩
    · rw [hclusters]
      simp
  case neg =>
    have hK2 : 2 ≤ min k students.length := le_of_not_lt hK
    have hlen2 := hlen hK2
    have hbound2 := hbound hK2
    set K := min k students.length with hKdef
    set labels := (kmeansFit matrix K).1 with hLdef
    have hassign : (run_clustering kmeansFit matrix concepts students k).assignments
        = (List.range K).flatMap (fun i =>
            (clusterStudents students (labels.map (fun l => l == i))).map
              (fun s => (s, "Cluster " ++ toString i))) := by
      simp only [run_clustering]
      rw [if_neg hK]
    have hclusters : (run_clustering kmeansFit matrix concepts students k).clusters
        = (List.range K).map (fun i =>
            { cluster_label := "Cluster " ++ toString i,
              centroid := concepts.enum.map (fun ci =>
                (ci.2, ((kmeansFit matrix K).2.getD i []).getD ci.1 0)),
              student_count := (labels.map (fun l => l == i)).count true,
              top_weak_concepts :=
                topWeakConcepts ((kmeansFit matrix K).2.getD i []) concepts 3,
              suggested_interventions := suggestInterventions
                (topWeakConcepts ((kmeansFit matrix K).2.getD i []) concepts 3) }) := by
      simp only [run_clustering]
      rw [if_neg hK]
    have hzb : ∀ p ∈ students.zip labels, p.2 < K := fun p hp =>
      hbound2 p.2 (List.of_mem_zip hp).2
    refine ⟨?_, ?_, ?_, ?_⟩
    · intro s
      rw [hassign, List.map_flatMap, count_flatMap]
      have hfun : (fun i =>
            (((clusterStudents students (labels.map (fun l => l == i))).map
              (fun s => (s, "Cluster " ++ toString i))).map Prod.fst).count s)
          = (fun i => (students.zip labels).countP
              (fun p => p.1 == s && p.2 == i)) := by
        funext i
        rw [List.map_map]
        have hcomp : (Prod.fst ∘ fun s => (s, "Cluster " ++ toString i))
            = (id : String → String) := rfl
        rw [hcomp, List.map_id, clusterStudents_mask, count_bucket_countP]
      rw [hfun, countP_zip_indicator K s (students.zip labels) hzb,
        countP_zip_fst_eq_count s students labels hlen2]
    · intro s lab lab2 ha hb
      rw [hassign] at ha hb
      obtain ⟨i, _, hai⟩ := List.mem_flatMap.mp ha
      obtain ⟨j, _, haj⟩ := List.mem_flatMap.mp hb
      obtain ⟨a, hamem, haeq⟩ := List.mem_map.mp hai
      obtain ⟨b, hbmem, hbeq⟩ := List.mem_map.mp haj
      rw [Prod.mk.injEq] at haeq hbeq
      rw [clusterStudents_mask] at hamem hbmem
      obtain ⟨pa, hpa, hpaf⟩ := List.mem_map.mp hamem
      obtain ⟨pb, hpb, hpbf⟩ := List.mem_map.mp hbmem
      rw [List.mem_filter] at hpa hpb
      have hpas : (s, pa.2) ∈ students.zip labels := by
        have : (s, pa.2) = pa := by
          rw [← Prod.mk.eta (p := pa), Prod.mk.injEq]
          exact ⟨(haeq.1 ▸ hpaf).symm ▸ rfl, rfl⟩
        rw [this]
        exact hpa.1
      have hpbs : (s, pb.2) ∈ students.zip labels := by
        have : (s, pb.2) = pb := by
          rw [← Prod.mk.eta (p := pb), Prod.mk.injEq]
          exact ⟨(hbeq.1 ▸ hpbf).symm ▸ rfl, rfl⟩
        rw [this]
        exact hpb.1
      have hsame : pa.2 = pb.2 :=
        zip_nodup_snd_unique s pa.2 pb.2 students labels hnodup hpas hpbs
      have hi2 : pa.2 = i := by simpa using hpa.2
      have hj2 : pb.2 = j := by simpa using hpb.2
      have hij : i = j := by rw [← hi2, ← hj2, hsame]
      rw [← haeq.2, ← hbeq.2, hij]
    · intro s lab ha
      rw [hassign] at ha
      obtain ⟨i, hi, hai⟩ := List.mem_flatMap.mp ha
      obtain ⟨a, _, haeq⟩ := List.mem_map.mp hai
      rw [Prod.mk.injEq] at haeq
      rw [hclusters]
      exact ⟨_, List.mem_map.mpr ⟨i, hi, rfl⟩, haeq.2⟩
    · rw [hclusters, List.map_map]
      have hcomp : ((fun (c : ClusterInfo) => c.student_count) ∘ (fun i =>
          ({ cluster_label := "Cluster " ++ toString i,
             centroid := concepts.enum.map (fun ci =>
               (ci.2, ((kmeansFit matrix K).2.getD i []).getD ci.1 0)),
             student_count := (labels.map (fun l => l == i)).count true,
             top_weak_concepts :=
               topWeakConcepts ((kmeansFit matrix K).2.getD i []) concepts 3,
             suggested_interventions := suggestInterventions
               (topWeakConcepts ((kmeansFit matrix K).2.getD i []) concepts 3) }
            : ClusterInfo)))
          = (fun i => (labels.map (fun l => l == i)).count true) := rfl
      rw [hcomp]
      have hfun2 : (fun i => (labels.map (fun l => l == i)).count true)
          = (fun i => labels.count i) := funext (mask_count_true labels)
      rw [hfun2, sum_count_range K labels hbound2, hlen2]

/-- A concrete fitted model obeying the library contract on the witness
input: labels `[0, 1, 0]` for three students, two centers. -/
def exKmeansFit : List (List ℚ) → Nat → List Nat × List (List ℚ) :=
  fun _ _ => ([0, 1, 0], [[1/10], [9/10]])

/-- C10 witness: three distinct students, `k = 2`: the assignment keys
count each student once and the cluster sizes sum to 3. -/
theorem c10_witness :
    (((run_clustering exKmeansFit [[1/10], [9/10], [2/10]] ["A"]
        ["s1", "s2", "s3"] 2).assignments.map Prod.fst).count "s1"
      = (["s1", "s2", "s3"] : List String).count "s1") ∧
    (((run_clustering exKmeansFit [[1/10], [9/10], [2/10]] ["A"]
        ["s1", "s2", "s3"] 2).clusters.map (fun c => c.student_count)).sum
      = (["s1", "s2", "s3"] : List String).length) := by
  have h := c10_clustering_partition exKmeansFit [[1/10], [9/10], [2/10]] ["A"]
    ["s1", "s2", "s3"] 2
    (by simp) (by simp)
    (fun _ => rfl)
    (fun _ => by intro l hl; fin_cases hl <;> decide)
  exact ⟨h.1 "s1", h.2.2.2⟩

end App
